import Mathlib

/-!
Verification of the BU vs BB poker drill program.

A `Card` models a two-character Python string such as "As": a rank
character and a suit character.  All functions below are shallow
embeddings of the Python source `bu_vs_bb_drill.py`; fallible Python
operations (a `ValueError` raised by `str.index`, an `IndexError`)
are modelled by `Option`, with `none` standing for a raised exception.
-/

/-- The constant `RANKS = "23456789TJQKA"` from the source, as a list of characters. -/
def RANKS : List Char := ['2', '3', '4', '5', '6', '7', '8', '9', 'T', 'J', 'Q', 'K', 'A']

/-- The constant `SUITS = "shdc"` from the source. -/
def SUITS : List Char := ['s', 'h', 'd', 'c']

/-- A card: a (rank, suit) pair of characters, modelling a two-character
string like "As" (rank = `card[0]`, suit = `card[1]`). -/
structure Card where
  rank : Char
  suit : Char
deriving DecidableEq

/-- Source `rank_value(r) = RANKS.index(r)`.  Python `str.index` raises
`ValueError` when the character is absent; that exception is modelled
by `none`. -/
def rank_value (r : Char) : Option Nat :=
  RANKS.indexOf? r

/-- Source `normalize_cards(card1, card2)`: returns `(hi, lo, suited, pair)`.
The rank comparison calls `rank_value` on both ranks, so a malformed
rank character raises (`none`) even when the hand is a pair. -/
def normalize_cards (card1 card2 : Card) : Option (Char × Char × Bool × Bool) := do
  let r1 := card1.rank
  let s1 := card1.suit
  let r2 := card2.rank
  let s2 := card2.suit
  let pair := r1 == r2
  let suited := s1 == s2
  let v1 ← rank_value r1
  let v2 ← rank_value r2
  let (hi, lo) := if v1 > v2 then (r1, r2) else (r2, r1)
  return (hi, lo, suited, pair)

/-- Source `in_suited_rules(hi, lo)`: the suited inclusion
table.  As in the source, `rank_value(lo)` is evaluated before any of
the per-high-rank branches. -/
def in_suited_rules (hi lo : Char) : Option Bool := do
  let lo_val ← rank_value lo
  if hi = 'A' ∨ hi = 'K' ∨ hi = 'Q' then
    return true
  else if hi = 'J' then
    let t ← rank_value '4'
    return decide (lo_val ≥ t)
  else if hi = 'T' then
    let t ← rank_value '6'
    return decide (lo_val ≥ t)
  else if hi = '9' then
    let t ← rank_value '6'
    return decide (lo_val ≥ t)
  else if hi = '8' then
    let t ← rank_value '5'
    return decide (lo_val ≥ t)
  else if hi = '7' then
    let t ← rank_value '5'
    return decide (lo_val ≥ t)
  else if hi = '6' then
    let t ← rank_value '4'
    return decide (lo_val ≥ t)
  else if hi = '5' then
    let t ← rank_value '3'
    return decide (lo_val ≥ t)
  else if hi = '4' then
    return decide (lo = '3')
  else
    return false

/-- Source `in_offsuit_rules(hi, lo)`: the offsuit inclusion
table (A3o+, K8o+, Q8o+, J8o+, T8o+, plus 98o). -/
def in_offsuit_rules (hi lo : Char) : Option Bool := do
  if hi = 'A' then
    let v ← rank_value lo
    let t ← rank_value '3'
    return decide (v ≥ t)
  else if hi = 'K' then
    let v ← rank_value lo
    let t ← rank_value '8'
    return decide (v ≥ t)
  else if hi = 'Q' then
    let v ← rank_value lo
    let t ← rank_value '8'
    return decide (v ≥ t)
  else if hi = 'J' then
    let v ← rank_value lo
    let t ← rank_value '8'
    return decide (v ≥ t)
  else if hi = 'T' then
    let v ← rank_value lo
    let t ← rank_value '8'
    return decide (v ≥ t)
  else
    return decide (hi = '9' ∧ lo = '8')

/-- Source `is_btn_open_45(card1, card2)`: pairs are always in
range; otherwise dispatch on the suited flag. -/
def is_btn_open_45 (card1 card2 : Card) : Option Bool := do
  let (hi, lo, suited, pair) ← normalize_cards card1 card2
  if pair then
    return true
  else if suited then
    in_suited_rules hi lo
  else
    in_offsuit_rules hi lo

/-- Source `fresh_deck()`: the 52 cards, rank-major then
suit, exactly as the Python list comprehension builds them. -/
def fresh_deck : List Card :=
  RANKS.flatMap fun r => SUITS.map fun s => Card.mk r s

/-!
Spec-side definitions.  These are written from the rule tables of the
specification (§4.1), not from the code: ranks are given their usual
numeric poker values 2..14 and the tables are transcribed literally,
to be compared with `is_btn_open_45` by the refinement theorem.
-/

/-- Numeric poker value of a rank character (2..14), used only to state
the specification's tables; 0 for anything malformed. -/
def specVal : Char → Nat
  | '2' => 2
  | '3' => 3
  | '4' => 4
  | '5' => 5
  | '6' => 6
  | '7' => 7
  | '8' => 8
  | '9' => 9
  | 'T' => 10
  | 'J' => 11
  | 'Q' => 12
  | 'K' => 13
  | 'A' => 14
  | _ => 0

/-- The §4.1 suited table, transcribed from the specification: per high
rank, the minimum kicker that is in range ('4' requires exactly a '3'
kicker; '3' and '2' high are never in range). -/
def specSuited (hi lo : Char) : Bool :=
  match hi with
  | 'A' | 'K' | 'Q' => true
  | 'J' => specVal lo ≥ 4
  | 'T' => specVal lo ≥ 6
  | '9' => specVal lo ≥ 6
  | '8' => specVal lo ≥ 5
  | '7' => specVal lo ≥ 5
  | '6' => specVal lo ≥ 4
  | '5' => specVal lo ≥ 3
  | '4' => lo = '3'
  | _ => false

/-- The §4.1 offsuit table, transcribed from the specification:
A with kicker ≥ 3; K, Q, J, T with kicker ≥ 8; exactly 98o; nothing
else. -/
def specOffsuit (hi lo : Char) : Bool :=
  match hi with
  | 'A' => specVal lo ≥ 3
  | 'K' | 'Q' | 'J' | 'T' => specVal lo ≥ 8
  | '9' => lo = '8'
  | _ => false

/-- The §4.1 range predicate as the specification states it: every pair
is in range; otherwise order the two ranks (hi ≥ lo by numeric value)
and consult the suited or offsuit table. -/
def specRange (c1 c2 : Card) : Bool :=
  if c1.rank = c2.rank then true
  else
    let hi := if specVal c1.rank ≥ specVal c2.rank then c1.rank else c2.rank
    let lo := if specVal c1.rank ≥ specVal c2.rank then c2.rank else c1.rank
    if c1.suit = c2.suit then specSuited hi lo else specOffsuit hi lo


/-!
Dealer.  Python's `random` module is modelled abstractly: an RNG is a
state type `σ` together with a `shuffle` step that, as
`random.shuffle` on a fresh deck does, produces a permutation of
`fresh_deck` (this is a hypothesis of the theorems, not baked in) and
a successor state, and a `seedFn` mapping an integer seed to the state
that `random.seed(seed)` installs.  The source's `while True:` loop is
embedded with explicit fuel: `none` on fuel exhaustion models
divergence, and the theorems only concern calls that return.
-/

/-- The body of `deal_btn_open_and_board`'s `while True:` loop, with
fuel.  Each iteration draws a fresh shuffled deck from the RNG, takes
`deck[0]` and `deck[1]` as the candidate hand (an out-of-range index,
impossible for a 52-card deck, would raise and is `none` here), keeps
it if `is_btn_open_45` accepts, and otherwise reshuffles. -/
def deal_loop {σ : Type} (shuffle : σ → List Card × σ) :
    Nat → σ → Option (((Card × Card) × List Card) × σ)
  | 0, _ => none
  | fuel + 1, st =>
    let (deck, st') := shuffle st
    match deck[0]?, deck[1]? with
    | some c1, some c2 =>
      match is_btn_open_45 c1 c2 with
      | some true => some (((c1, c2), (deck.drop 2).take 5), st')
      | some false => deal_loop shuffle fuel st'
      | none => none
    | _, _ => none

/-- Source `deal_btn_open_and_board(seed)`: if a seed is
given, `random.seed(seed)` replaces the RNG state before the loop;
otherwise the incoming state is used unchanged. -/
def deal_btn_open_and_board {σ : Type} (shuffle : σ → List Card × σ) (seedFn : Int → σ)
    (fuel : Nat) (seed : Option Int) (st : σ) :
    Option (((Card × Card) × List Card) × σ) :=
  let st0 := match seed with
    | some s => seedFn s
    | none => st
  deal_loop shuffle fuel st0

/-- The dealing loop of `main` (source lines 224-228): each hand is
dealt by `deal_btn_open_and_board(seed=seed)`, and when a seed was
supplied it is incremented by one afterwards.  The RNG state is
threaded through; the printed streets are modelled separately by
`run_session` below. -/
def main_deals {σ : Type} (shuffle : σ → List Card × σ) (seedFn : Int → σ) (fuel : Nat) :
    Nat → Option Int → σ → List (Option ((Card × Card) × List Card))
  | 0, _, _ => []
  | hands + 1, seed, st =>
    let r := deal_btn_open_and_board shuffle seedFn fuel seed st
    let st' := match r with
      | some (_, s) => s
      | none => st
    r.map Prod.fst :: main_deals shuffle seedFn fuel hands (seed.map (· + 1)) st'

/-!
Session driver.  Standard input during one wait is modelled as
`Option (List Char)`: `none` when `sys.stdin.fileno()` raises
`io.UnsupportedOperation` (no usable file descriptor), `some chars`
for the characters that arrive during the wait.  One crucial Python
semantics fact is modelled explicitly: `check_keypress` runs in a
daemon `threading.Thread`, and an exception raised inside a thread's
target (the `raise KeyboardInterrupt` on reading `'\x03'`) terminates
only that thread via `threading.excepthook`; it is never re-raised in
the main thread.  The main thread observes the watcher solely through
the `key_pressed` event flag.
-/

/-- What becomes of the `check_keypress` watcher thread. -/
inductive WatcherOutcome where
  /-- the thread set the `key_pressed` flag and returned -/
  | setKey : WatcherOutcome
  /-- the thread raised (`KeyboardInterrupt` on `'\x03'`) and died;
  the exception stays inside the thread -/
  | died : WatcherOutcome
  /-- the thread returned without setting the flag: no usable stdin
  file descriptor, or no recognized key before the wait ended -/
  | silent : WatcherOutcome
deriving DecidableEq

/-- Source `check_keypress`: with no usable file descriptor
the thread just returns; otherwise it scans the arriving characters,
raising on `'\x03'` and setting the flag on space, CR or LF. -/
def check_keypress (stdin : Option (List Char)) : WatcherOutcome :=
  match stdin with
  | none => WatcherOutcome.silent
  | some chars => scan chars
where
  /-- the `while not key_pressed.is_set():` read loop over the
  characters that arrive during the wait -/
  scan : List Char → WatcherOutcome
    | [] => WatcherOutcome.silent
    | ch :: rest =>
      if ch = '\x03' then WatcherOutcome.died
      else if ch = ' ' ∨ ch = '\r' ∨ ch = '\n' then WatcherOutcome.setKey
      else scan rest

/-- The countdown loop of `wait_for_key_with_timeout`, discretized to
its 0.1-second polls: given whether the watcher has set the flag and
the number of remaining polls, return (key_pressed result, number of
countdown iterations executed).  With zero polls remaining the loop
body never runs and the wait times out at once. -/
def wait_loop (flag : Bool) : Nat → Bool × Nat
  | 0 => (false, 0)
  | n + 1 =>
    if flag then (true, 1)
    else
      let (b, k) := wait_loop flag n
      (b, k + 1)

/-- Polls per second of the countdown loop (`time.sleep(0.1)`). -/
def TICKS_PER_SECOND : Nat := 10

/-- Source `wait_for_key_with_timeout(timeout_seconds)`, as the main thread
sees it: spawn the watcher, poll the flag for at most
`timeout_seconds` worth of ticks, return `True` on a key press and
`False` on timeout.  A `died` watcher is indistinguishable from a
`silent` one here: its exception never reaches this thread. -/
def wait_for_key_with_timeout (timeout_seconds : Nat) (stdin : Option (List Char)) : Bool :=
  (wait_loop (check_keypress stdin == WatcherOutcome.setKey)
    (timeout_seconds * TICKS_PER_SECOND)).1

/-- One printed line of the session, as structured data: each
constructor stands for exactly one `print` in `main` or the top-level
guard, carrying the cards that line formats. -/
inductive StreetEvent where
  /-- the line `Hand {i}:` -/
  | handHeader (i : Nat) : StreetEvent
  /-- the line `Preflop: {card} {card}` -/
  | preflop (c1 c2 : Card) : StreetEvent
  /-- the line `Flop: {cards}` printing `board[:3]` -/
  | flop (cs : List Card) : StreetEvent
  /-- the line `Turn: {card}` printing `board[3]` -/
  | turn (c : Option Card) : StreetEvent
  /-- the line `River: {card}` printing `board[4]` -/
  | river (c : Option Card) : StreetEvent
  /-- the final line `Done. Good session.` -/
  | doneMsg : StreetEvent
  /-- the interrupt notice `Stopped by user.` -/
  | stoppedMsg : StreetEvent
deriving DecidableEq

/-- The four streets of hand `i` in `main`'s loop (source lines
230-244): print the street, then block in `wait_for_key_with_timeout`.
The wait's boolean result is bound and discarded exactly as the source
discards it; `stdin` gives the input arriving during each of the four
waits of this hand. -/
def hand_streets (timeout : Nat) (stdin : Nat → Option (List Char)) (i : Nat)
    (hb : (Card × Card) × List Card) : List StreetEvent :=
  let hand := hb.1
  let board := hb.2
  let _w1 := wait_for_key_with_timeout timeout (stdin (4 * (i - 1)))
  let _w2 := wait_for_key_with_timeout timeout (stdin (4 * (i - 1) + 1))
  let _w3 := wait_for_key_with_timeout timeout (stdin (4 * (i - 1) + 2))
  let _w4 := wait_for_key_with_timeout timeout (stdin (4 * (i - 1) + 3))
  [StreetEvent.handHeader i, StreetEvent.preflop hand.1 hand.2,
   StreetEvent.flop (board.take 3), StreetEvent.turn board[3]?,
   StreetEvent.river board[4]?]

/-- Source `main`, per-hand loop: `i` is the current hand number, the second
argument the hands still to play.  `deal` abstracts the dealt
(hand, board) of each hand number (its seed threading is `main_deals`
above). -/
def session_hands (deal : Nat → (Card × Card) × List Card) (timeout : Nat)
    (stdin : Nat → Option (List Char)) : Nat → Nat → List StreetEvent
  | _, 0 => []
  | i, n + 1 =>
    hand_streets timeout stdin i (deal i) ++
      session_hands deal timeout stdin (i + 1) n

/-- A full run of `main`: all hands, then the final
`Done. Good session.` line.  During the waits the watcher thread may
die on Ctrl-C, but `main` itself never raises `KeyboardInterrupt` on
that path, so the run always reaches the final print. -/
def run_session (deal : Nat → (Card × Card) × List Card) (hands timeout : Nat)
    (stdin : Nat → Option (List Char)) : List StreetEvent :=
  session_hands deal timeout stdin 1 hands ++ [StreetEvent.doneMsg]

/-- The `if __name__ == "__main__":` guard (source lines 248-252): a
`KeyboardInterrupt` escaping `main` (carrying the lines printed before
it) is caught once, `Stopped by user.` is printed, and either way the
process exits with code 0. -/
def main_guard (r : Except (List StreetEvent) (List StreetEvent)) :
    List StreetEvent × Nat :=
  match r with
  | Except.ok evs => (evs, 0)
  | Except.error evs => (evs ++ [StreetEvent.stoppedMsg], 0)

/-- The whole program on the interactive path: `run_session` never
raises `KeyboardInterrupt` (the watcher's raise dies with its thread),
so the guard always receives `ok`. -/
def program_run (deal : Nat → (Card × Card) × List Card) (hands timeout : Nat)
    (stdin : Nat → Option (List Char)) : List StreetEvent × Nat :=
  main_guard (Except.ok (run_session deal hands timeout stdin))

/-- A fixed dealt hand used to instantiate the session theorems: the
pocket pair 2♠2♥ with board 2♦ 2♣ 3♠ 3♥ 3♦ (the deal the identity
shuffle produces). -/
def sampleDeal : Nat → (Card × Card) × List Card := fun _ =>
  ((Card.mk '2' 's', Card.mk '2' 'h'),
   [Card.mk '2' 'd', Card.mk '2' 'c', Card.mk '3' 's', Card.mk '3' 'h', Card.mk '3' 'd'])

/-!
Helper lemmas about the range evaluator.  `rangeOfRanks` isolates what
`is_btn_open_45` computes from the two rank characters and the
suited flag alone; the factoring lemma shows `is_btn_open_45` equals
it, which is the precise sense in which the suit characters enter the
computation only through their equality test.
-/

/-- The computation of `is_btn_open_45` as a function of the two rank
characters and the boolean suited flag. -/
def rangeOfRanks (r1 r2 : Char) (suited : Bool) : Option Bool := do
  let pair := r1 == r2
  let v1 ← rank_value r1
  let v2 ← rank_value r2
  let (hi, lo) := if v1 > v2 then (r1, r2) else (r2, r1)
  if pair then
    return true
  else if suited then
    in_suited_rules hi lo
  else
    in_offsuit_rules hi lo

/-- Function `is_btn_open_45` factors through the ranks and the suited flag. -/
theorem is_btn_open_45_eq_rangeOfRanks (c1 c2 : Card) :
    is_btn_open_45 c1 c2 = rangeOfRanks c1.rank c2.rank (c1.suit == c2.suit) := by
  cases hv1 : rank_value c1.rank <;> cases hv2 : rank_value c2.rank <;>
    simp [is_btn_open_45, normalize_cards, rangeOfRanks, hv1, hv2]

/-- On valid rank characters `rangeOfRanks` is symmetric in the ranks. -/
theorem rangeOfRanks_symm :
    ∀ r1 ∈ RANKS, ∀ r2 ∈ RANKS, ∀ b, rangeOfRanks r1 r2 b = rangeOfRanks r2 r1 b := by
  decide

/-- On valid rank characters `rangeOfRanks` always returns a boolean. -/
theorem rangeOfRanks_isSome :
    ∀ r1 ∈ RANKS, ∀ r2 ∈ RANKS, ∀ b, (rangeOfRanks r1 r2 b).isSome = true := by
  decide

/-- Every card of the deck has a valid rank character. -/
theorem mem_fresh_deck_rank : ∀ c ∈ fresh_deck, c.rank ∈ RANKS := by
  decide

/-- Function `rank_value` raises exactly on characters outside `RANKS`. -/
theorem rank_value_eq_none_iff (r : Char) : rank_value r = none ↔ r ∉ RANKS := by
  simp [rank_value, List.indexOf?_eq_none_iff]
  constructor
  · intro h hmem
    exact h r hmem rfl
  · intro h x hx hxr
    exact h (hxr ▸ hx)

/-- C1: for every one of the 1326 distinct unordered two-card hands
(both cards drawn from the 52-card deck, hence with well-formed rank
and suit, and distinct), `is_btn_open_45` returns exactly the boolean
prescribed by the §4.1 rule tables (`specRange`): every pair is in
range, suited non-pairs follow the suited threshold table, offsuit
non-pairs follow the offsuit table. -/
theorem btn_range_matches_spec_tables :
    ∀ c1 ∈ fresh_deck, ∀ c2 ∈ fresh_deck, c1 ≠ c2 →
      is_btn_open_45 c1 c2 = some (specRange c1 c2) := by
  decide

/-- Witness for C1: the theorem applied to the concrete hand J♠4♠. -/
theorem btn_range_matches_spec_tables_witness :
    Card.mk 'J' 's' ∈ fresh_deck ∧ Card.mk '4' 's' ∈ fresh_deck ∧
      Card.mk 'J' 's' ≠ Card.mk '4' 's' ∧
      is_btn_open_45 (Card.mk 'J' 's') (Card.mk '4' 's') =
        some (specRange (Card.mk 'J' 's') (Card.mk '4' 's')) :=
  ⟨by decide, by decide, by decide,
    btn_range_matches_spec_tables (Card.mk 'J' 's') (by decide)
      (Card.mk '4' 's') (by decide) (by decide)⟩

/-- C3: every pocket pair (two distinct well-formed cards of equal
rank) is in range, regardless of the suits. -/
theorem pairs_always_in_range :
    ∀ c1 ∈ fresh_deck, ∀ c2 ∈ fresh_deck, c1 ≠ c2 → c1.rank = c2.rank →
      is_btn_open_45 c1 c2 = some true := by
  decide

/-- Witness for C3: the theorem applied to 7♦7♣. -/
theorem pairs_always_in_range_witness :
    Card.mk '7' 'd' ∈ fresh_deck ∧ Card.mk '7' 'c' ∈ fresh_deck ∧
      Card.mk '7' 'd' ≠ Card.mk '7' 'c' ∧
      is_btn_open_45 (Card.mk '7' 'd') (Card.mk '7' 'c') = some true :=
  ⟨by decide, by decide, by decide,
    pairs_always_in_range (Card.mk '7' 'd') (by decide)
      (Card.mk '7' 'c') (by decide) (by decide) (by decide)⟩

/-- C9: `is_btn_open_45` is symmetric in its two card arguments for
all well-formed distinct cards, because `normalize_cards` orders the
ranks high-to-low independently of argument order. -/
theorem range_symmetric :
    ∀ c1 ∈ fresh_deck, ∀ c2 ∈ fresh_deck, c1 ≠ c2 →
      is_btn_open_45 c1 c2 = is_btn_open_45 c2 c1 := by
  decide

/-- Witness for C9: the theorem applied to A♠ and 2♥. -/
theorem range_symmetric_witness :
    Card.mk 'A' 's' ∈ fresh_deck ∧ Card.mk '2' 'h' ∈ fresh_deck ∧
      Card.mk 'A' 's' ≠ Card.mk '2' 'h' ∧
      is_btn_open_45 (Card.mk 'A' 's') (Card.mk '2' 'h') =
        is_btn_open_45 (Card.mk '2' 'h') (Card.mk 'A' 's') :=
  ⟨by decide, by decide, by decide,
    range_symmetric (Card.mk 'A' 's') (by decide) (Card.mk '2' 'h') (by decide) (by decide)⟩

/-- C10: range membership depends only on the two ranks and on whether
the suits are equal: two well-formed distinct hands with the same
multiset of ranks and the same suited flag get the same answer. -/
theorem range_depends_only_on_ranks_and_suitedness
    (c1 c2 d1 d2 : Card)
    (hc1 : c1 ∈ fresh_deck) (hc2 : c2 ∈ fresh_deck)
    (hd1 : d1 ∈ fresh_deck) (hd2 : d2 ∈ fresh_deck)
    (hne : c1 ≠ c2) (hne' : d1 ≠ d2)
    (hranks : (c1.rank = d1.rank ∧ c2.rank = d2.rank) ∨
      (c1.rank = d2.rank ∧ c2.rank = d1.rank))
    (hsuit : (c1.suit == c2.suit) = (d1.suit == d2.suit)) :
    is_btn_open_45 c1 c2 = is_btn_open_45 d1 d2 := by
  rw [is_btn_open_45_eq_rangeOfRanks, is_btn_open_45_eq_rangeOfRanks, hsuit]
  rcases hranks with ⟨h1, h2⟩ | ⟨h1, h2⟩
  · rw [h1, h2]
  · rw [h1, h2]
    exact rangeOfRanks_symm d2.rank (mem_fresh_deck_rank d2 hd2)
      d1.rank (mem_fresh_deck_rank d1 hd1) _

/-- Witness for C10: A♠K♥ versus K♦A♣ (same ranks swapped, both
offsuit) receive the same answer. -/
theorem range_depends_only_on_ranks_and_suitedness_witness :
    Card.mk 'A' 's' ∈ fresh_deck ∧ Card.mk 'K' 'h' ∈ fresh_deck ∧
      Card.mk 'K' 'd' ∈ fresh_deck ∧ Card.mk 'A' 'c' ∈ fresh_deck ∧
      is_btn_open_45 (Card.mk 'A' 's') (Card.mk 'K' 'h') =
        is_btn_open_45 (Card.mk 'K' 'd') (Card.mk 'A' 'c') :=
  ⟨by decide, by decide, by decide, by decide,
    range_depends_only_on_ranks_and_suitedness
      (Card.mk 'A' 's') (Card.mk 'K' 'h') (Card.mk 'K' 'd') (Card.mk 'A' 'c')
      (by decide) (by decide) (by decide) (by decide) (by decide) (by decide)
      (Or.inr ⟨rfl, rfl⟩) (by decide)⟩

/-- C5 counterexample: a hand whose suit characters `x` and `y` are
malformed (not in `SUITS`) does not make the evaluator fail — it
returns a boolean (`some true` here): the suits are consulted only
through their equality test, so no input-validation error is raised
for them. -/
theorem malformed_suit_no_error :
    'x' ∉ SUITS ∧ 'y' ∉ SUITS ∧
      is_btn_open_45 (Card.mk 'A' 'x') (Card.mk 'K' 'y') = some true := by
  decide

/-- C5 amended: the range evaluator fails (raises, modelled by `none`)
exactly when one of the rank characters is malformed; with two valid
rank characters it returns a boolean whatever the suit characters are,
so malformed suits are accepted silently. -/
theorem range_eval_fails_iff_bad_rank (c1 c2 : Card) :
    is_btn_open_45 c1 c2 = none ↔ (c1.rank ∉ RANKS ∨ c2.rank ∉ RANKS) := by
  rw [is_btn_open_45_eq_rangeOfRanks]
  constructor
  · intro h
    by_contra hcon
    push_neg at hcon
    obtain ⟨h1, h2⟩ := hcon
    have hs := rangeOfRanks_isSome c1.rank h1 c2.rank h2 (c1.suit == c2.suit)
    rw [h] at hs
    simp at hs
  · intro h
    rcases h with h | h
    · have hv : rank_value c1.rank = none := (rank_value_eq_none_iff _).mpr h
      simp [rangeOfRanks, hv]
    · have hv : rank_value c2.rank = none := (rank_value_eq_none_iff _).mpr h
      cases hv1 : rank_value c1.rank <;> simp [rangeOfRanks, hv, hv1]

/-- The full deck has no duplicates. -/
theorem fresh_deck_nodup : fresh_deck.Nodup := by decide

/-- Soundness of the dealing loop: whenever every shuffle the RNG
produces is a permutation of the 52-card deck and the loop returns,
the dealt hand is in range and hand plus board are 7 pairwise-distinct
cards of the deck. -/
theorem deal_loop_sound {σ : Type} (shuffle : σ → List Card × σ)
    (hperm : ∀ s, ((shuffle s).1).Perm fresh_deck) (fuel : Nat) :
    ∀ (st : σ) (c1 c2 : Card) (board : List Card) (st' : σ),
      deal_loop shuffle fuel st = some (((c1, c2), board), st') →
      is_btn_open_45 c1 c2 = some true ∧ board.length = 5 ∧
        (c1 :: c2 :: board).Nodup ∧ ∀ c ∈ c1 :: c2 :: board, c ∈ fresh_deck := by
  induction fuel with
  | zero =>
    intro st c1 c2 board st' h
    simp [deal_loop] at h
  | succ n ih =>
    intro st c1 c2 board st' h
    have hp : ((shuffle st).1).Perm fresh_deck := hperm st
    rw [deal_loop] at h
    rcases hs : shuffle st with ⟨deck, st2⟩
    rw [hs] at h hp
    simp only at h hp
    rcases deck with _ | ⟨a, _ | ⟨b, t⟩⟩
    · simp at h
    · simp at h
    · simp only [List.getElem?_cons_zero, List.getElem?_cons_succ] at h
      cases hob : is_btn_open_45 a b with
      | none => rw [hob] at h; simp at h
      | some v =>
        rw [hob] at h
        cases v with
        | false =>
          simp only at h
          exact ih st2 c1 c2 board st' h
        | true =>
          simp only [List.drop_succ_cons, List.drop_zero, Option.some_inj] at h
          injection h with hA hst
          injection hA with hAB hboard
          injection hAB with hc1 hc2
          subst hc1
          subst hc2
          subst hboard
          have hnd : (a :: b :: t).Nodup := hp.symm.nodup fresh_deck_nodup
          have hlen : (a :: b :: t).length = fresh_deck.length := hp.length_eq
          have ht : t.length = 50 := by
            simp [List.length_cons] at hlen
            have : fresh_deck.length = 52 := by decide
            omega
          have hsub : List.Sublist (a :: b :: t.take 5) (a :: b :: t) :=
            List.Sublist.cons₂ a (List.Sublist.cons₂ b (List.take_sublist 5 t))
          refine ⟨hob, ?_, hsub.nodup hnd, fun c hc => hp.subset (hsub.subset hc)⟩
          simp [List.length_take]
          omega

/-- C2: whatever the seed (or none) and whatever RNG state, whenever
`deal_btn_open_and_board` returns, the result is a 2-card hand
satisfying `is_btn_open_45` and a 5-card board, the 7 cards pairwise
distinct and all drawn from the 52-card deck — provided only that the
RNG's shuffles are, as `random.shuffle` of a fresh deck is,
permutations of `fresh_deck`. -/
theorem deal_returns_valid_hand_and_board {σ : Type}
    (shuffle : σ → List Card × σ) (seedFn : Int → σ) (fuel : Nat)
    (seed : Option Int) (st : σ)
    (hperm : ∀ s, ((shuffle s).1).Perm fresh_deck)
    (c1 c2 : Card) (board : List Card) (st' : σ)
    (h : deal_btn_open_and_board shuffle seedFn fuel seed st =
      some (((c1, c2), board), st')) :
    is_btn_open_45 c1 c2 = some true ∧ board.length = 5 ∧
      (c1 :: c2 :: board).Nodup ∧ ∀ c ∈ c1 :: c2 :: board, c ∈ fresh_deck :=
  deal_loop_sound shuffle hperm fuel _ c1 c2 board st' h

/-- Witness for C2: the trivial RNG whose every shuffle is the fresh
deck itself deals 2♠2♥ with board 2♦ 2♣ 3♠ 3♥ 3♦; the theorem applies
and its conclusion holds there. -/
theorem deal_returns_valid_hand_and_board_witness :
    (∀ s : Unit, (((fun _ : Unit => (fresh_deck, ())) s).1).Perm fresh_deck) ∧
    deal_btn_open_and_board (fun _ : Unit => (fresh_deck, ())) (fun _ => ()) 1
        (some 42) () =
      some (((Card.mk '2' 's', Card.mk '2' 'h'),
        [Card.mk '2' 'd', Card.mk '2' 'c', Card.mk '3' 's',
         Card.mk '3' 'h', Card.mk '3' 'd']), ()) ∧
    (is_btn_open_45 (Card.mk '2' 's') (Card.mk '2' 'h') = some true ∧
      ([Card.mk '2' 'd', Card.mk '2' 'c', Card.mk '3' 's',
        Card.mk '3' 'h', Card.mk '3' 'd'] : List Card).length = 5 ∧
      (Card.mk '2' 's' :: Card.mk '2' 'h' :: [Card.mk '2' 'd', Card.mk '2' 'c',
        Card.mk '3' 's', Card.mk '3' 'h', Card.mk '3' 'd']).Nodup ∧
      ∀ c ∈ Card.mk '2' 's' :: Card.mk '2' 'h' :: [Card.mk '2' 'd', Card.mk '2' 'c',
        Card.mk '3' 's', Card.mk '3' 'h', Card.mk '3' 'd'], c ∈ fresh_deck) :=
  ⟨fun _ => List.Perm.refl _, by decide,
    deal_returns_valid_hand_and_board (fun _ : Unit => (fresh_deck, ()))
      (fun _ => ()) 1 (some 42) () (fun _ => List.Perm.refl _)
      (Card.mk '2' 's') (Card.mk '2' 'h')
      [Card.mk '2' 'd', Card.mk '2' 'c', Card.mk '3' 's',
       Card.mk '3' 'h', Card.mk '3' 'd'] () (by decide)⟩

/-- The dealing loop of `main` under a supplied seed: hand `i`
(0-indexed here, hand number `i+1` in the program's output) is dealt
from the RNG state `seedFn (s + i)`, independently of the RNG state
the previous hand left behind. -/
theorem main_deals_seeded {σ : Type} (shuffle : σ → List Card × σ)
    (seedFn : Int → σ) (fuel : Nat) :
    ∀ (hands : Nat) (s : Int) (st : σ),
      main_deals shuffle seedFn fuel hands (some s) st =
        (List.range hands).map
          (fun i : Nat => (deal_loop shuffle fuel (seedFn (s + (i : Int)))).map Prod.fst) := by
  intro hands
  induction hands with
  | zero =>
    intro s st
    simp [main_deals]
  | succ n ih =>
    intro s st
    rw [List.range_succ_eq_map, List.map_cons, List.map_map]
    rw [main_deals]
    simp only [Option.map_some']
    congr 1
    · simp [deal_btn_open_and_board]
    · rw [ih (s + 1)]
      apply List.map_congr_left
      intro i _
      have hcast : s + 1 + (i : Int) = s + ((i : Int) + 1) := by ring
      simp [Function.comp, hcast]

/-- C4: dealing is deterministic in the seed — with the same seed the
result is independent of the RNG state left by earlier activity — and
`main`'s loop deals hand number `i` (1-based) with seed `s + i - 1`,
re-seeding with seed+1 after each hand, so the whole session is
reproducible while successive hands use distinct seeds. -/
theorem deal_seed_deterministic_and_incremented {σ : Type}
    (shuffle : σ → List Card × σ) (seedFn : Int → σ) (fuel : Nat)
    (s : Int) (st1 st2 st : σ) (hands : Nat) :
    deal_btn_open_and_board shuffle seedFn fuel (some s) st1 =
      deal_btn_open_and_board shuffle seedFn fuel (some s) st2 ∧
    main_deals shuffle seedFn fuel hands (some s) st =
      (List.range hands).map
        (fun i : Nat => (deal_loop shuffle fuel (seedFn (s + (i : Int)))).map Prod.fst) ∧
    (∀ i j : Nat, i < hands → j < hands → i ≠ j →
      s + (i : Int) ≠ s + (j : Int)) := by
  refine ⟨rfl, main_deals_seeded shuffle seedFn fuel hands s st, ?_⟩
  intro i j _ _ hne
  omega

/-- The streets printed for one hand do not depend on the input that
arrives during its waits: the wait results are discarded. -/
theorem hand_streets_stdin_irrelevant (timeout : Nat)
    (stdin1 stdin2 : Nat → Option (List Char)) (i : Nat)
    (hb : (Card × Card) × List Card) :
    hand_streets timeout stdin1 i hb = hand_streets timeout stdin2 i hb := rfl

/-- The whole hand loop is likewise independent of the input scripts. -/
theorem session_hands_stdin_irrelevant
    (deal : Nat → (Card × Card) × List Card) (timeout : Nat)
    (stdin1 stdin2 : Nat → Option (List Char)) :
    ∀ (n i : Nat),
      session_hands deal timeout stdin1 i n = session_hands deal timeout stdin2 i n := by
  intro n
  induction n with
  | zero => intro i; rfl
  | succ m ih =>
    intro i
    simp only [session_hands]
    rw [ih, hand_streets_stdin_irrelevant timeout stdin1 stdin2]

/-- C7: key press and timeout are indistinguishable to the session.
The per-street waits' boolean results are discarded by `main`, so for
any two input behaviors — any mix of recognized continue keys
(wait returns `true`) and timeout expiries (wait returns `false`)
across all streets of all hands — the revealed cards, the printed
street lines and the advancement of the session are identical. -/
theorem wait_outcome_invisible_to_session
    (deal : Nat → (Card × Card) × List Card) (hands timeout : Nat)
    (stdin1 stdin2 : Nat → Option (List Char)) :
    run_session deal hands timeout stdin1 = run_session deal hands timeout stdin2 := by
  unfold run_session
  rw [session_hands_stdin_irrelevant deal timeout stdin1 stdin2]

/-- When the watcher never sets the flag, the countdown runs all its
polls and the wait times out. -/
theorem wait_loop_no_flag : ∀ n : Nat, wait_loop false n = (false, n) := by
  intro n
  induction n with
  | zero => rfl
  | succ m ih => simp [wait_loop, ih]

/-- A wait whose watcher never sets the `key_pressed` flag — because
it died on an exception or found nothing to read — resolves by timeout
and returns `False`. -/
theorem wait_no_key_times_out (timeout : Nat) (stdin : Option (List Char))
    (h : (check_keypress stdin == WatcherOutcome.setKey) = false) :
    wait_for_key_with_timeout timeout stdin = false := by
  unfold wait_for_key_with_timeout
  rw [h, wait_loop_no_flag]

/-- C6: evaluating the program at the failing input.  A Ctrl-C
(`'\x03'`) typed during a per-street wait reaches the watcher thread,
which raises `KeyboardInterrupt` there and dies
(`WatcherOutcome.died`); under Python's threading semantics that
exception never reaches the main thread, so the wait simply times out
(`false`), the session runs every remaining street of every hand, the
final line is `Done. Good session.`, `Stopped by user.` is never
printed, and the exit code is 0 — the session is NOT aborted. -/
theorem ctrl_c_during_wait_does_not_stop_session :
    check_keypress (some ['\x03']) = WatcherOutcome.died ∧
    wait_for_key_with_timeout 600 (some ['\x03']) = false ∧
    program_run sampleDeal 2 600 (fun _ => some ['\x03']) =
      ([StreetEvent.handHeader 1,
        StreetEvent.preflop (Card.mk '2' 's') (Card.mk '2' 'h'),
        StreetEvent.flop [Card.mk '2' 'd', Card.mk '2' 'c', Card.mk '3' 's'],
        StreetEvent.turn (some (Card.mk '3' 'h')),
        StreetEvent.river (some (Card.mk '3' 'd')),
        StreetEvent.handHeader 2,
        StreetEvent.preflop (Card.mk '2' 's') (Card.mk '2' 'h'),
        StreetEvent.flop [Card.mk '2' 'd', Card.mk '2' 'c', Card.mk '3' 's'],
        StreetEvent.turn (some (Card.mk '3' 'h')),
        StreetEvent.river (some (Card.mk '3' 'd')),
        StreetEvent.doneMsg], 0) ∧
    StreetEvent.stoppedMsg ∉ (program_run sampleDeal 2 600 (fun _ => some ['\x03'])).1 := by
  exact ⟨rfl, wait_no_key_times_out 600 (some ['\x03']) (by decide), by decide, by decide⟩

/-- Length of the hand loop's output: five printed lines per hand. -/
theorem session_hands_length (deal : Nat → (Card × Card) × List Card)
    (timeout : Nat) (stdin : Nat → Option (List Char)) :
    ∀ (n i : Nat), (session_hands deal timeout stdin i n).length = 5 * n := by
  intro n
  induction n with
  | zero => intro i; rfl
  | succ m ih =>
    intro i
    simp only [session_hands, List.length_append, ih]
    simp [hand_streets]
    omega

/-- C8: with `--timeout 0` and no usable standard-input file
descriptor, every per-street wait returns `false` after zero countdown
iterations and without raising (the watcher thread just exits), so a
session of 1 to 3 hands prints all five lines of every hand and ends
with `Done. Good session.` without hanging or raising. -/
theorem timeout_zero_no_tty_completes (deal : Nat → (Card × Card) × List Card)
    (hands : Nat) (h1 : 1 ≤ hands) (h3 : hands ≤ 3) :
    wait_for_key_with_timeout 0 none = false ∧
    wait_loop (check_keypress none == WatcherOutcome.setKey) (0 * TICKS_PER_SECOND) =
      (false, 0) ∧
    (run_session deal hands 0 (fun _ => none)).length = 5 * hands + 1 ∧
    (run_session deal hands 0 (fun _ => none)).getLast? = some StreetEvent.doneMsg := by
  refine ⟨rfl, rfl, ?_, ?_⟩
  · unfold run_session
    simp [session_hands_length]
  · unfold run_session
    exact List.getLast?_concat _

/-- Witness for C8: the theorem applied at one hand with the sample
deal. -/
theorem timeout_zero_no_tty_completes_witness :
    ((1 : Nat) ≤ 1 ∧ (1 : Nat) ≤ 3) ∧
    (wait_for_key_with_timeout 0 none = false ∧
      wait_loop (check_keypress none == WatcherOutcome.setKey) (0 * TICKS_PER_SECOND) =
        (false, 0) ∧
      (run_session sampleDeal 1 0 (fun _ => none)).length = 5 * 1 + 1 ∧
      (run_session sampleDeal 1 0 (fun _ => none)).getLast? = some StreetEvent.doneMsg) :=
  ⟨⟨by decide, by decide⟩,
    timeout_zero_no_tty_completes sampleDeal 1 (by decide) (by decide)⟩

/-- Witness for C4: the theorem applied to the one-state RNG, seed 5,
two hands. -/
theorem deal_seed_deterministic_and_incremented_witness :
    deal_btn_open_and_board (fun _ : Unit => (fresh_deck, ())) (fun _ => ()) 1
        (some 5) () =
      deal_btn_open_and_board (fun _ : Unit => (fresh_deck, ())) (fun _ => ()) 1
        (some 5) () ∧
    main_deals (fun _ : Unit => (fresh_deck, ())) (fun _ => ()) 1 2 (some 5) () =
      (List.range 2).map
        (fun i : Nat =>
          (deal_loop (fun _ : Unit => (fresh_deck, ())) 1 ()).map Prod.fst) ∧
    (∀ i j : Nat, i < 2 → j < 2 → i ≠ j →
      (5 : Int) + (i : Int) ≠ (5 : Int) + (j : Int)) :=
  deal_seed_deterministic_and_incremented
    (fun _ : Unit => (fresh_deck, ())) (fun _ => ()) 1 5 () () () 2

/-- Witness for C5's amended claim: the theorem applied to a malformed
rank character. -/
theorem range_eval_fails_iff_bad_rank_witness :
    is_btn_open_45 (Card.mk 'Z' 's') (Card.mk 'K' 's') = none ↔
      ((Card.mk 'Z' 's').rank ∉ RANKS ∨ (Card.mk 'K' 's').rank ∉ RANKS) :=
  range_eval_fails_iff_bad_rank (Card.mk 'Z' 's') (Card.mk 'K' 's')

/-- Witness for C7: a session whose every wait gets a space key equals
one whose every wait times out with no input at all. -/
theorem wait_outcome_invisible_to_session_witness :
    run_session sampleDeal 1 600 (fun _ => some [' ']) =
      run_session sampleDeal 1 600 (fun _ => none) :=
  wait_outcome_invisible_to_session sampleDeal 1 600 (fun _ => some [' ']) (fun _ => none)
